import Mathlib

/-!
Shallow embedding of `src/main.py` (an ephemeral single-use file relay) and
proofs of its specification claims.

Modelling conventions:
- Python dicts become association lists `Dict V = List (String × V)`;
  insertion conses a fresh binding after erasing the key, deletion erases
  the key, dict sweeps become list filters (mirroring the source's
  "collect expired keys, then delete each" loops).
- Time (`time.time()`) is a `Nat` passed explicitly to every operation; all
  time reads inside one request handler observe the same instant.
- The filesystem is a `Dict Bytes` from paths to byte lists; `os.remove`
  erases a key, streaming a payload to disk inserts one.
- `HTTPException` / `RuntimeError` become an `Except Err` result; because
  the registries are module-level globals that are NOT rolled back when a
  handler raises, every operation returns its (possibly mutated) state
  alongside the result.
- Randomness (`uuid.uuid4`, `secrets.token_hex`) is modelled by passing the
  freshly generated identifier/token as an explicit argument.
- The request body stream is a `StreamRes`: either the complete payload
  arrives, or the transfer fails after a proper portion was written.
-/

deriving instance DecidableEq for Except

namespace DeploySync

/-- Byte sequences (payload contents). -/
abbrev Bytes := List Nat

/-- A Python dict, embedded as an association list with string keys. -/
abbrev Dict (V : Type) := List (String × V)

/-- First binding for key `k`, like `d.get(k)`. -/
def lookupKey {V : Type} (k : String) : Dict V → Option V
  | [] => none
  | (k', v) :: rest => if k' = k then some v else lookupKey k rest

/-- Remove every binding for key `k`, like `del d[k]` (dicts have unique keys). -/
def eraseKey {V : Type} (k : String) : Dict V → Dict V
  | [] => []
  | (k', v) :: rest => if k' = k then eraseKey k rest else (k', v) :: eraseKey k rest

/-- `d[k] = v`: bind `k` to `v`, replacing any previous binding. -/
def insertKey {V : Type} (k : String) (v : V) (d : Dict V) : Dict V :=
  (k, v) :: eraseKey k d

/-- The error taxonomy of the service, as surfaced by `main.py`:
`unauthorized` = HTTP 401, `notFound` = HTTP 404, `payloadTooLarge` = HTTP 413,
`runtimeError` = the `RuntimeError("UPLOAD_TOKEN not set")` configuration error,
`streamError` = an exception propagated out of the streaming save. -/
inductive Err where
  | unauthorized
  | notFound
  | payloadTooLarge
  | runtimeError
  | streamError
deriving DecidableEq, Repr

/-- Environment configuration, read once at process start (`main.py` lines 21-29). -/
structure Config where
  UPLOAD_TOKEN : String
  ONE_TIME_TOKEN_TTL_SECONDS : Nat
  TASK_TTL_SECONDS : Nat
  MAX_UPLOAD_BYTES : Nat
  UPLOAD_DIR : String
deriving DecidableEq, Repr

/-- A task registry record: `tasks[task_id] = {"file_path", "burn_on_download", "created_at"}`. -/
structure TaskRec where
  file_path : String
  burn_on_download : Bool
  created_at : Nat
deriving DecidableEq, Repr

/-- A download-token record: `download_tokens[token] = {"task_id", "expire_at"}`. -/
structure DlTok where
  task_id : String
  expire_at : Nat
deriving DecidableEq, Repr

/-- The module-level mutable state of `main.py`: the three registries plus the
filesystem under `UPLOAD_DIR` (one-time upload tokens map to their expiry instant). -/
structure St where
  tasks : Dict TaskRec
  one_time_tokens : Dict Nat
  download_tokens : Dict DlTok
  files : Dict Bytes
deriving DecidableEq, Repr

/-- Outcome of reading the request body stream: either the full payload, or a
mid-stream failure after `written` bytes were already written to the open file. -/
inductive StreamRes where
  | ok (content : Bytes)
  | err (written : Bytes)
deriving DecidableEq, Repr

/-- `_delete_file_quiet`: best-effort `os.remove`, a no-op on a missing file and
on a falsy (empty) path. -/
def delete_file_quiet (path : String) (files : Dict Bytes) : Dict Bytes :=
  if path = "" then files else eraseKey path files

/-- `_cleanup_expired_one_time_tokens`: delete every token with `exp <= now`. -/
def cleanup_expired_one_time_tokens (now : Nat) (d : Dict Nat) : Dict Nat :=
  d.filter (fun p => decide (now < p.2))

/-- `_cleanup_expired_download_tokens`: delete every token with `expire_at <= now`. -/
def cleanup_expired_download_tokens (now : Nat) (d : Dict DlTok) : Dict DlTok :=
  d.filter (fun p => decide (now < p.2.expire_at))

/-- The sweep condition of `_cleanup_expired_tasks`:
`if created_at and (created_at + TASK_TTL_SECONDS) <= now` — note the Python
truthiness guard, which skips records whose `created_at` is `0`. -/
def task_expired (cfg : Config) (now : Nat) (r : TaskRec) : Bool :=
  decide (r.created_at ≠ 0 ∧ r.created_at + cfg.TASK_TTL_SECONDS ≤ now)

/-- `_cleanup_expired_tasks`: collect the expired task ids, then for each delete
its backing file and its registry record. -/
def cleanup_expired_tasks (cfg : Config) (now : Nat)
    (tasks : Dict TaskRec) (files : Dict Bytes) : Dict TaskRec × Dict Bytes :=
  let expired := tasks.filter (fun p => task_expired cfg now p.2)
  let files2 := expired.foldl (fun fs p => delete_file_quiet p.2.file_path fs) files
  let tasks2 := tasks.filter (fun p => !(task_expired cfg now p.2))
  (tasks2, files2)

/-- `_save_uploadfile_to_disk`: chunked copy of the request body into `dst_path`.
Opening the file truncates/creates it; on a mid-stream failure the bytes written
so far remain on disk and the exception propagates. -/
def save_uploadfile_to_disk (stream : StreamRes) (dst_path : String)
    (files : Dict Bytes) : Except Err Unit × Dict Bytes :=
  match stream with
  | .ok content => (.ok (), insertKey dst_path content files)
  | .err written => (.error .streamError, insertKey dst_path written files)

/-- `authorize_upload_token`: accept the long-lived `UPLOAD_TOKEN`, or redeem a
one-time upload token (sweep, look up, reject missing/expired, delete on use).
Returns the authorization kind and the updated one-time token registry. -/
def authorize_upload_token (cfg : Config) (now : Nat) (x_upload_token : Option String)
    (one_time_tokens : Dict Nat) : Except Err String × Dict Nat :=
  if cfg.UPLOAD_TOKEN = "" then (.error .runtimeError, one_time_tokens)
  else
    let tok := x_upload_token.getD ""
    if tok = "" then (.error .unauthorized, one_time_tokens)
    else if tok = cfg.UPLOAD_TOKEN then (.ok "long", one_time_tokens)
    else
      let ott := cleanup_expired_one_time_tokens now one_time_tokens
      match lookupKey tok ott with
      | none => (.error .unauthorized, ott)
      | some exp =>
        if exp = 0 then (.error .unauthorized, ott)
        else if exp ≤ now then (.error .unauthorized, eraseKey tok ott)
        else (.ok "one_time", eraseKey tok ott)

/-- `_issue_download_token`: sweep, then bind a fresh random token (passed in as
`token`) to the task with expiry `now + ONE_TIME_TOKEN_TTL_SECONDS`. -/
def issue_download_token (cfg : Config) (now : Nat) (task_id : String) (token : String)
    (download_tokens : Dict DlTok) : String × Dict DlTok :=
  let dts := cleanup_expired_download_tokens now download_tokens
  (token, insertKey token ⟨task_id, now + cfg.ONE_TIME_TOKEN_TTL_SECONDS⟩ dts)

/-- `_authorize_download_token`: sweep, look up the token, reject when missing,
bound to a different task, or expired; delete the token on successful redemption. -/
def authorize_download_token (now : Nat) (x_download_token : Option String)
    (task_id : String) (download_tokens : Dict DlTok) : Except Err Unit × Dict DlTok :=
  let tok := x_download_token.getD ""
  if tok = "" then (.error .unauthorized, download_tokens)
  else
    let dts := cleanup_expired_download_tokens now download_tokens
    match lookupKey tok dts with
    | none => (.error .unauthorized, dts)
    | some info =>
      if info.task_id ≠ task_id then (.error .unauthorized, dts)
      else if info.expire_at ≤ now then (.error .unauthorized, eraseKey tok dts)
      else (.ok (), eraseKey tok dts)

/-- `_delete_task`: delete the task's backing file and its registry record;
idempotent (a no-op on an unknown id). -/
def delete_task (task_id : String) (tasks : Dict TaskRec) (files : Dict Bytes) :
    Dict TaskRec × Dict Bytes :=
  match lookupKey task_id tasks with
  | none => (tasks, files)
  | some info => (eraseKey task_id tasks, delete_file_quiet info.file_path files)

/-- The `content_length is not None and content_length > MAX_UPLOAD_BYTES` guard. -/
def content_length_exceeds (cfg : Config) : Option Nat → Bool
  | some n => decide (cfg.MAX_UPLOAD_BYTES < n)
  | none => false

/-- `POST /upload-token`: issue a one-time upload token (requires the long-lived
`UPLOAD_TOKEN`); the fresh random token is passed in as `fresh`. -/
def issue_one_time_upload_token (cfg : Config) (now : Nat) (x_upload_token : Option String)
    (fresh : String) (one_time_tokens : Dict Nat) : Except Err String × Dict Nat :=
  if cfg.UPLOAD_TOKEN = "" then (.error .runtimeError, one_time_tokens)
  else if x_upload_token ≠ some cfg.UPLOAD_TOKEN then (.error .unauthorized, one_time_tokens)
  else
    let ott := cleanup_expired_one_time_tokens now one_time_tokens
    (.ok fresh, insertKey fresh (now + cfg.ONE_TIME_TOKEN_TTL_SECONDS) ott)

/-- `POST /upload`: authorize, sweep, size-check the declared content length,
stream the body to `UPLOAD_DIR/<task_id>.bin` (deleting the file and
propagating the error on a mid-stream failure), register the task with
`burn_on_download = True`, issue a download token, and return
`task_id|download_token`. The `upload_filename` argument is the client-supplied
name of the multipart `UploadFile`; the handler never reads it. The fresh
`task_id` (uuid4) and `fresh_dl_token` are passed in explicitly. -/
def upload_file (cfg : Config) (now : Nat) (x_upload_token : Option String)
    (content_length : Option Nat) (upload_filename : String)
    (task_id : String) (fresh_dl_token : String) (stream : StreamRes)
    (st : St) : Except Err String × St :=
  let (auth, ott) := authorize_upload_token cfg now x_upload_token st.one_time_tokens
  match auth with
  | .error e => (.error e, { st with one_time_tokens := ott })
  | .ok _ =>
    let (tasks1, files1) := cleanup_expired_tasks cfg now st.tasks st.files
    let dts1 := cleanup_expired_download_tokens now st.download_tokens
    if content_length_exceeds cfg content_length then
      (.error .payloadTooLarge, ⟨tasks1, ott, dts1, files1⟩)
    else
      let file_path := cfg.UPLOAD_DIR ++ "/" ++ task_id ++ ".bin"
      match save_uploadfile_to_disk stream file_path files1 with
      | (.error e, files2) =>
        (.error e, ⟨tasks1, ott, dts1, delete_file_quiet file_path files2⟩)
      | (.ok _, files2) =>
        let tasks2 := insertKey task_id ⟨file_path, true, now⟩ tasks1
        let (dl_tok, dts2) := issue_download_token cfg now task_id fresh_dl_token dts1
        (.ok (task_id ++ "|" ++ dl_tok), ⟨tasks2, ott, dts2, files2⟩)

/-- `POST /download-token`: reissue a one-time download token for an existing
task (requires the long-lived `UPLOAD_TOKEN`); 404 when the task is gone or its
backing file is missing (destroying the stale record in the latter case). -/
def reissue_download_token (cfg : Config) (now : Nat) (task_id : String)
    (x_upload_token : Option String) (fresh_token : String) (st : St) :
    Except Err String × St :=
  if cfg.UPLOAD_TOKEN = "" then (.error .runtimeError, st)
  else if x_upload_token ≠ some cfg.UPLOAD_TOKEN then (.error .unauthorized, st)
  else
    let (tasks1, files1) := cleanup_expired_tasks cfg now st.tasks st.files
    match lookupKey task_id tasks1 with
    | none => (.error .notFound, { st with tasks := tasks1, files := files1 })
    | some task =>
      match lookupKey task.file_path files1 with
      | none =>
        let (tasks2, files2) := delete_task task_id tasks1 files1
        (.error .notFound, { st with tasks := tasks2, files := files2 })
      | some _ =>
        let (tok, dts) := issue_download_token cfg now task_id fresh_token st.download_tokens
        (.ok tok, ⟨tasks1, st.one_time_tokens, dts, files1⟩)

/-- `GET /download-file/(task_id)`: redeem the one-time download token, sweep,
resolve the task (404 when absent; 404 + stale-record destruction when its file
is missing), and return a `FileResponse` of the blob. The response body is the
file's content at hand-off time; when `burn_on_download` is set, the burn is
only *scheduled* (returned in the deferred list, to run after the response has
been sent), not applied to the returned state. -/
def download_file (cfg : Config) (now : Nat) (task_id : String)
    (x_download_token : Option String) (st : St) :
    Except Err (Bytes × String) × St × List String :=
  let (auth, dts) := authorize_download_token now x_download_token task_id st.download_tokens
  match auth with
  | .error e => (.error e, { st with download_tokens := dts }, [])
  | .ok _ =>
    let (tasks1, files1) := cleanup_expired_tasks cfg now st.tasks st.files
    match lookupKey task_id tasks1 with
    | none => (.error .notFound, ⟨tasks1, st.one_time_tokens, dts, files1⟩, [])
    | some task =>
      match lookupKey task.file_path files1 with
      | none =>
        let (tasks2, files2) := delete_task task_id tasks1 files1
        (.error .notFound, ⟨tasks2, st.one_time_tokens, dts, files2⟩, [])
      | some content =>
        let deferred := if task.burn_on_download then [task_id] else []
        (.ok (content, task_id ++ ".bin"), ⟨tasks1, st.one_time_tokens, dts, files1⟩, deferred)

/-- Run the `BackgroundTasks` queued by a response, in order: each entry is a
`_delete_task` call scheduled by a burning download. -/
def run_background (deferred : List String) (tasks : Dict TaskRec) (files : Dict Bytes) :
    Dict TaskRec × Dict Bytes :=
  deferred.foldl (fun tf id => delete_task id tf.1 tf.2) (tasks, files)

/-- Modelled from the spec: the latest-slot upload variant of section 4.3 is not
present in `src/main.py` (it lives in other revisions of this repository).
Per the spec, the upload "targets one reserved, well-known storage handle; a new
upload overwrites the previous payload for that slot. The overwrite must be
atomic: write to a temporary path, then perform an atomic rename/replace into
the reserved handle." The function returns the intermediate filesystem state
(after the temp write, before the replace) and the final state (after the
atomic replace). -/
def slot_upload (slot_path tmp_path : String) (payload : Bytes) (files : Dict Bytes) :
    Dict Bytes × Dict Bytes :=
  let mid := insertKey tmp_path payload files
  let fin := insertKey slot_path payload (eraseKey tmp_path mid)
  (mid, fin)

/-- Repeated redemption attempts of one upload token `t`, one attempt per
element of the time list, threading the one-time token registry through. -/
def redeemUploadMany (cfg : Config) (t : String) :
    List Nat → Dict Nat → List (Except Err String) × Dict Nat
  | [], m => ([], m)
  | now :: rest, m =>
    let (r, m') := authorize_upload_token cfg now (some t) m
    let (rs, m'') := redeemUploadMany cfg t rest m'
    (r :: rs, m'')

/-- Repeated redemption attempts of one download token `t` for task `tid`, one
attempt per element of the time list, threading the registry through. -/
def redeemDownloadMany (tid : String) (t : String) :
    List Nat → Dict DlTok → List (Except Err Unit) × Dict DlTok
  | [], m => ([], m)
  | now :: rest, m =>
    let (r, m') := authorize_download_token now (some t) tid m
    let (rs, m'') := redeemDownloadMany tid t rest m'
    (r :: rs, m'')

/-! ### Dictionary lemmas -/

/-- Looking up the key just inserted returns the inserted value. -/
theorem lookupKey_insertKey_self {V : Type} (k : String) (v : V) (d : Dict V) :
    lookupKey k (insertKey k v d) = some v := by
  simp [insertKey, lookupKey]

/-- Erasing a key makes its lookup fail. -/
theorem lookupKey_eraseKey_self {V : Type} (k : String) (d : Dict V) :
    lookupKey k (eraseKey k d) = none := by
  induction d with
  | nil => rfl
  | cons q rest ih =>
    obtain ⟨k1, v⟩ := q
    by_cases h : k1 = k
    · simpa [eraseKey, h] using ih
    · simp [eraseKey, lookupKey, h, ih]

/-- Erasing one key leaves lookups of a different key unchanged. -/
theorem lookupKey_eraseKey_ne {V : Type} {k k' : String} (h : k ≠ k') (d : Dict V) :
    lookupKey k' (eraseKey k d) = lookupKey k' d := by
  induction d with
  | nil => rfl
  | cons q rest ih =>
    obtain ⟨k1, v⟩ := q
    by_cases h1 : k1 = k
    · subst h1
      have h2 : k1 ≠ k' := h
      simp [eraseKey, lookupKey, h2, ih]
    · by_cases h2 : k1 = k'
      · subst h2
        simp [eraseKey, lookupKey, h1, Ne.symm h]
      · simp [eraseKey, lookupKey, h1, h2, ih]

/-- Looking up a different key after an insertion sees the old dictionary. -/
theorem lookupKey_insertKey_ne {V : Type} {k k' : String} (h : k ≠ k') (v : V) (d : Dict V) :
    lookupKey k' (insertKey k v d) = lookupKey k' d := by
  simp [insertKey, lookupKey, h, lookupKey_eraseKey_ne h]

/-- Erasing an absent key is a no-op. -/
theorem eraseKey_of_lookupKey_none {V : Type} {k : String} {d : Dict V}
    (h : lookupKey k d = none) : eraseKey k d = d := by
  induction d with
  | nil => rfl
  | cons q rest ih =>
    obtain ⟨k1, v⟩ := q
    by_cases h1 : k1 = k
    · simp [lookupKey, h1] at h
    · simp [lookupKey, h1] at h
      simp [eraseKey, h1, ih h]

/-- A successful lookup exhibits a member of the dictionary. -/
theorem mem_of_lookupKey {V : Type} {k : String} {d : Dict V} {v : V}
    (h : lookupKey k d = some v) : (k, v) ∈ d := by
  induction d with
  | nil => simp [lookupKey] at h
  | cons q rest ih =>
    obtain ⟨k1, v1⟩ := q
    by_cases h1 : k1 = k
    · subst h1
      simp [lookupKey] at h
      subst h
      exact List.mem_cons_self _ _
    · simp [lookupKey, h1] at h
      exact List.mem_cons_of_mem _ (ih h)

/-- If no member has key `k`, the lookup of `k` fails. -/
theorem lookupKey_eq_none_of_forall {V : Type} {k : String} {d : Dict V}
    (h : ∀ q ∈ d, q.1 ≠ k) : lookupKey k d = none := by
  induction d with
  | nil => rfl
  | cons q rest ih =>
    obtain ⟨k1, v1⟩ := q
    have h1 : k1 ≠ k := h (k1, v1) (List.mem_cons_self _ _)
    simp [lookupKey, h1]
    exact ih (fun q hq => h q (List.mem_cons_of_mem _ hq))

/-- A lookup that succeeds and whose binding satisfies the filter predicate
survives filtering. -/
theorem lookupKey_filter_of_pos {V : Type} {p : String × V → Bool} {k : String}
    {d : Dict V} {v : V} (hl : lookupKey k d = some v) (hp : p (k, v) = true) :
    lookupKey k (d.filter p) = some v := by
  induction d with
  | nil => simp [lookupKey] at hl
  | cons q rest ih =>
    obtain ⟨k1, v1⟩ := q
    by_cases h1 : k1 = k
    · subst h1
      simp [lookupKey] at hl
      subst hl
      simp [List.filter, hp, lookupKey]
    · simp [lookupKey, h1] at hl
      cases hq : p (k1, v1) <;> simp [List.filter, hq, lookupKey, h1, ih hl]

/-- A lookup that fails still fails after filtering. -/
theorem lookupKey_filter_of_none {V : Type} {p : String × V → Bool} {k : String}
    {d : Dict V} (hl : lookupKey k d = none) :
    lookupKey k (d.filter p) = none := by
  induction d with
  | nil => rfl
  | cons q rest ih =>
    obtain ⟨k1, v1⟩ := q
    by_cases h1 : k1 = k
    · simp [lookupKey, h1] at hl
    · simp [lookupKey, h1] at hl
      cases hq : p (k1, v1) <;> simp [List.filter, hq, lookupKey, h1, ih hl]

/-- Key uniqueness of a Python dict: every reachable registry satisfies it. -/
abbrev keysNodup {V : Type} (d : Dict V) : Prop := (d.map Prod.fst).Nodup

/-- Filtering preserves key uniqueness. -/
theorem keysNodup_filter {V : Type} {p : String × V → Bool} {d : Dict V}
    (h : keysNodup d) : keysNodup (d.filter p) :=
  h.sublist ((List.filter_sublist d).map Prod.fst)

/-- In a dict with unique keys, a binding rejected by the filter predicate is
gone after filtering. -/
theorem lookupKey_filter_of_neg {V : Type} {p : String × V → Bool} {k : String}
    {d : Dict V} {v : V} (hnd : keysNodup d) (hl : lookupKey k d = some v)
    (hp : p (k, v) = false) : lookupKey k (d.filter p) = none := by
  induction d with
  | nil => simp [lookupKey] at hl
  | cons q rest ih =>
    obtain ⟨k1, v1⟩ := q
    have hnd' := List.nodup_cons.mp hnd
    by_cases h1 : k1 = k
    · subst h1
      simp [lookupKey] at hl
      subst hl
      have hrest : lookupKey k1 rest = none := by
        refine lookupKey_eq_none_of_forall (fun q hq hk => ?_)
        have h5 : q.1 ∈ rest.map Prod.fst := List.mem_map_of_mem Prod.fst hq
        rw [hk] at h5
        exact hnd'.1 h5
      simp [List.filter, hp, lookupKey_filter_of_none hrest]
    · simp [lookupKey, h1] at hl
      cases hq : p (k1, v1) <;>
        simp [List.filter, hq, lookupKey, h1, ih hnd'.2 hl]

/-- Lookup through a filter on a unique-key dict, in closed form. -/
theorem lookupKey_filter_eq {V : Type} {p : String × V → Bool} {k : String}
    {d : Dict V} (hnd : keysNodup d) :
    lookupKey k (d.filter p) =
      match lookupKey k d with
      | some v => if p (k, v) then some v else none
      | none => none := by
  cases hl : lookupKey k d with
  | none => simpa using lookupKey_filter_of_none hl
  | some v =>
    cases hp : p (k, v) with
    | false => simpa [hp] using lookupKey_filter_of_neg hnd hl hp
    | true => simpa [hp] using lookupKey_filter_of_pos hl hp

/-! ### Sweep and deletion lemmas -/

/-- A sweep over one-time tokens none of which are expired is the identity. -/
theorem cleanup_expired_one_time_tokens_id {now : Nat} {d : Dict Nat}
    (h : ∀ q ∈ d, now < q.2) : cleanup_expired_one_time_tokens now d = d :=
  List.filter_eq_self.mpr (fun a ha => by simpa using h a ha)

/-- A sweep over download tokens none of which are expired is the identity. -/
theorem cleanup_expired_download_tokens_id {now : Nat} {d : Dict DlTok}
    (h : ∀ q ∈ d, now < q.2.expire_at) : cleanup_expired_download_tokens now d = d :=
  List.filter_eq_self.mpr (fun a ha => by simpa using h a ha)

/-- A sweep over tasks none of which are expired changes nothing. -/
theorem cleanup_expired_tasks_id {cfg : Config} {now : Nat} {tasks : Dict TaskRec}
    {files : Dict Bytes} (h : ∀ q ∈ tasks, task_expired cfg now q.2 = false) :
    cleanup_expired_tasks cfg now tasks files = (tasks, files) := by
  have h1 : tasks.filter (fun p => task_expired cfg now p.2) = [] :=
    List.filter_eq_nil_iff.mpr (fun a ha => by simp [h a ha])
  have h2 : tasks.filter (fun p => !(task_expired cfg now p.2)) = tasks :=
    List.filter_eq_self.mpr (fun a ha => by simp [h a ha])
  simp [cleanup_expired_tasks, h1, h2]

/-- Quiet file deletion cannot make an absent path present. -/
theorem lookupKey_delete_file_quiet_none {p path : String} {files : Dict Bytes}
    (h : lookupKey p files = none) :
    lookupKey p (delete_file_quiet path files) = none := by
  unfold delete_file_quiet
  by_cases hp : path = ""
  · simpa [hp]
  · by_cases hpp : path = p
    · subst hpp
      simp [hp, lookupKey_eraseKey_self]
    · simp [hp, lookupKey_eraseKey_ne hpp, h]

/-- Quiet deletion of a nonempty path removes it. -/
theorem lookupKey_delete_file_quiet_self {path : String} (hp : path ≠ "")
    (files : Dict Bytes) :
    lookupKey path (delete_file_quiet path files) = none := by
  simp [delete_file_quiet, hp, lookupKey_eraseKey_self]

/-- The file-deletion fold of the task sweep cannot make an absent path present. -/
theorem lookupKey_foldl_delete_none {l : List (String × TaskRec)} {files : Dict Bytes}
    {p : String} (h : lookupKey p files = none) :
    lookupKey p (l.foldl (fun fs q => delete_file_quiet q.2.file_path fs) files) = none := by
  induction l generalizing files with
  | nil => simpa
  | cons q rest ih =>
    simp only [List.foldl_cons]
    exact ih (lookupKey_delete_file_quiet_none h)

/-- The file-deletion fold of the task sweep removes the backing file of every
listed record (for nonempty paths). -/
theorem lookupKey_foldl_delete_mem {l : List (String × TaskRec)} {files : Dict Bytes}
    {p : String} (hp : p ≠ "") (h : ∃ q ∈ l, q.2.file_path = p) :
    lookupKey p (l.foldl (fun fs q => delete_file_quiet q.2.file_path fs) files) = none := by
  induction l generalizing files with
  | nil => simp at h
  | cons q rest ih =>
    simp only [List.foldl_cons]
    rcases h with ⟨q', hq', hfp⟩
    rcases List.mem_cons.mp hq' with h1 | h1
    · subst h1
      rw [hfp]
      exact lookupKey_foldl_delete_none (lookupKey_delete_file_quiet_self hp files)
    · exact ih ⟨q', h1, hfp⟩

/-- A path of the shape `dir ++ "/" ++ id ++ ".bin"` is never the empty string,
so `_delete_file_quiet` really deletes it. -/
theorem append_bin_ne_empty (a b : String) : a ++ "/" ++ b ++ ".bin" ≠ "" := by
  intro h
  have h1 := congrArg String.length h
  rw [String.length_append, String.length_append, String.length_append] at h1
  have h2 : ("/" : String).length = 1 := rfl
  have h3 : (".bin" : String).length = 4 := rfl
  have h4 : ("" : String).length = 0 := rfl
  omega

/-! ### Authorization lemmas -/

/-- Redeeming a present, unexpired one-time upload token succeeds as
`"one_time"` and deletes the token. -/
theorem authorize_upload_token_success {cfg : Config} {t : String} {e now : Nat}
    {m : Dict Nat} (hU : cfg.UPLOAD_TOKEN ≠ "") (ht : t ≠ "")
    (htU : t ≠ cfg.UPLOAD_TOKEN) (hm : lookupKey t m = some e) (hnow : now < e) :
    authorize_upload_token cfg now (some t) m
      = (.ok "one_time", eraseKey t (cleanup_expired_one_time_tokens now m)) := by
  have hc : lookupKey t (cleanup_expired_one_time_tokens now m) = some e :=
    lookupKey_filter_of_pos hm (by simpa using hnow)
  have he0 : e ≠ 0 := by omega
  have hle : ¬e ≤ now := by omega
  simp [authorize_upload_token, hU, ht, htU, hc, he0, hle]

/-- Redeeming an absent one-time upload token fails `Unauthorized`; the state
only loses swept entries. -/
theorem authorize_upload_token_absent {cfg : Config} {t : String} {now : Nat}
    {m : Dict Nat} (hU : cfg.UPLOAD_TOKEN ≠ "") (ht : t ≠ "")
    (htU : t ≠ cfg.UPLOAD_TOKEN) (hm : lookupKey t m = none) :
    authorize_upload_token cfg now (some t) m
      = (.error .unauthorized, cleanup_expired_one_time_tokens now m) := by
  have hc : lookupKey t (cleanup_expired_one_time_tokens now m) = none :=
    lookupKey_filter_of_none hm
  simp [authorize_upload_token, hU, ht, htU, hc]

/-- Redeeming an expired one-time upload token fails `Unauthorized`
(the entry point's own sweep already dropped it). -/
theorem authorize_upload_token_expired {cfg : Config} {t : String} {e now : Nat}
    {m : Dict Nat} (hU : cfg.UPLOAD_TOKEN ≠ "") (ht : t ≠ "")
    (htU : t ≠ cfg.UPLOAD_TOKEN) (hnd : keysNodup m)
    (hm : lookupKey t m = some e) (hle : e ≤ now) :
    (authorize_upload_token cfg now (some t) m).1 = .error .unauthorized := by
  have hc : lookupKey t (cleanup_expired_one_time_tokens now m) = none :=
    lookupKey_filter_of_neg hnd hm (by simpa using hle)
  simp [authorize_upload_token, hU, ht, htU, hc]

/-- Redeeming a present, unexpired, correctly bound download token succeeds and
deletes the token. -/
theorem authorize_download_token_success {now : Nat} {d tid : String} {e : Nat}
    {dm : Dict DlTok} (hd : d ≠ "") (hdm : lookupKey d dm = some ⟨tid, e⟩)
    (hnow : now < e) :
    authorize_download_token now (some d) tid dm
      = (.ok (), eraseKey d (cleanup_expired_download_tokens now dm)) := by
  have hc : lookupKey d (cleanup_expired_download_tokens now dm) = some ⟨tid, e⟩ :=
    lookupKey_filter_of_pos hdm (by simpa using hnow)
  have hle : ¬e ≤ now := by omega
  simp [authorize_download_token, hd, hc, hle]

/-- Redeeming an absent download token fails `Unauthorized`. -/
theorem authorize_download_token_absent {now : Nat} {d tid : String}
    {dm : Dict DlTok} (hd : d ≠ "") (hdm : lookupKey d dm = none) :
    authorize_download_token now (some d) tid dm
      = (.error .unauthorized, cleanup_expired_download_tokens now dm) := by
  have hc : lookupKey d (cleanup_expired_download_tokens now dm) = none :=
    lookupKey_filter_of_none hdm
  simp [authorize_download_token, hd, hc]

/-- Redeeming an expired download token fails `Unauthorized`. -/
theorem authorize_download_token_expired {now : Nat} {d tid : String} {e : Nat}
    {dm : Dict DlTok} (hd : d ≠ "") (hnd : keysNodup dm)
    (hdm : lookupKey d dm = some ⟨tid, e⟩) (hle : e ≤ now) :
    (authorize_download_token now (some d) tid dm).1 = .error .unauthorized := by
  have hc : lookupKey d (cleanup_expired_download_tokens now dm) = none :=
    lookupKey_filter_of_neg hnd hdm (by simpa using hle)
  simp [authorize_download_token, hd, hc]

/-- Once an upload token is gone from the registry, every further redemption
attempt fails `Unauthorized` and the token stays gone. -/
theorem redeemUploadMany_absent {cfg : Config} {t : String} {m : Dict Nat}
    (hU : cfg.UPLOAD_TOKEN ≠ "") (ht : t ≠ "") (htU : t ≠ cfg.UPLOAD_TOKEN)
    (hm : lookupKey t m = none) (times : List Nat) :
    (redeemUploadMany cfg t times m).1 = times.map (fun _ => .error .unauthorized)
    ∧ lookupKey t (redeemUploadMany cfg t times m).2 = none := by
  induction times generalizing m with
  | nil => simpa [redeemUploadMany]
  | cons now rest ih =>
    have h1 := @authorize_upload_token_absent cfg t now m hU ht htU hm
    have hm' : lookupKey t (cleanup_expired_one_time_tokens now m) = none :=
      lookupKey_filter_of_none hm
    have ih' := ih hm'
    simp [redeemUploadMany, h1, ih'.1, ih'.2]

/-- Once a download token is gone from the registry, every further redemption
attempt fails `Unauthorized` and the token stays gone. -/
theorem redeemDownloadMany_absent {tid t : String} {dm : Dict DlTok}
    (ht : t ≠ "") (hm : lookupKey t dm = none) (times : List Nat) :
    (redeemDownloadMany tid t times dm).1 = times.map (fun _ => .error .unauthorized)
    ∧ lookupKey t (redeemDownloadMany tid t times dm).2 = none := by
  induction times generalizing dm with
  | nil => simpa [redeemDownloadMany]
  | cons now rest ih =>
    have h1 := @authorize_download_token_absent now t tid dm ht hm
    have hm' : lookupKey t (cleanup_expired_download_tokens now dm) = none :=
      lookupKey_filter_of_none hm
    have ih' := ih hm'
    simp [redeemDownloadMany, h1, ih'.1, ih'.2]

/-! ### Claim theorems -/

/-- C1: for every credential token t (one-time upload kind or download kind), a
successful redemption removes t's registry entry before the redeeming operation
returns, so any later redemption attempt presenting the same token fails
`Unauthorized`; of N redemption attempts of a once-issued t (the first made
while t is still live), exactly one succeeds and the rest fail `Unauthorized`. -/
theorem c1_single_redemption
    (cfg : Config) (t : String) (e : Nat) (m : Dict Nat)
    (tid d : String) (e2 : Nat) (dm : Dict DlTok)
    (now now2 : Nat) (rest rest2 : List Nat)
    (hU : cfg.UPLOAD_TOKEN ≠ "") (ht : t ≠ "") (htU : t ≠ cfg.UPLOAD_TOKEN)
    (hm : lookupKey t m = some e) (hnow : now < e)
    (hd : d ≠ "") (hdm : lookupKey d dm = some ⟨tid, e2⟩) (hnow2 : now2 < e2) :
    (redeemUploadMany cfg t (now :: rest) m).1
      = .ok "one_time" :: rest.map (fun _ => .error .unauthorized)
    ∧ lookupKey t (redeemUploadMany cfg t (now :: rest) m).2 = none
    ∧ (redeemDownloadMany tid d (now2 :: rest2) dm).1
      = .ok () :: rest2.map (fun _ => .error .unauthorized)
    ∧ lookupKey d (redeemDownloadMany tid d (now2 :: rest2) dm).2 = none := by
  have h1 := authorize_upload_token_success hU ht htU hm hnow
  have hm' : lookupKey t (eraseKey t (cleanup_expired_one_time_tokens now m)) = none :=
    lookupKey_eraseKey_self t _
  have h2 := redeemUploadMany_absent hU ht htU hm' rest
  have h3 := authorize_download_token_success hd hdm hnow2
  have hm2 : lookupKey d (eraseKey d (cleanup_expired_download_tokens now2 dm)) = none :=
    lookupKey_eraseKey_self d _
  have h4 := @redeemDownloadMany_absent tid d
    (eraseKey d (cleanup_expired_download_tokens now2 dm)) hd hm2 rest2
  refine ⟨?_, ?_, ?_, ?_⟩
  · simp [redeemUploadMany, h1, h2.1]
  · simp [redeemUploadMany, h1, h2.2]
  · simp [redeemDownloadMany, h3, h4.1]
  · simp [redeemDownloadMany, h3, h4.2]

/-- C1 witness: a concrete once-issued upload token redeemed three times and a
concrete download token redeemed twice: exactly the first attempt succeeds and
the token is gone afterwards. -/
theorem c1_witness :
    (redeemUploadMany ⟨"s", 600, 3600, 60, "up"⟩ "t" [5, 6, 8] [("t", 10)]).1
      = [.ok "one_time", .error .unauthorized, .error .unauthorized]
    ∧ lookupKey "t" (redeemUploadMany ⟨"s", 600, 3600, 60, "up"⟩ "t" [5, 6, 8] [("t", 10)]).2 = none
    ∧ (redeemDownloadMany "task" "d" [7, 9] [("d", ⟨"task", 20⟩)]).1
      = [.ok (), .error .unauthorized]
    ∧ lookupKey "d" (redeemDownloadMany "task" "d" [7, 9] [("d", ⟨"task", 20⟩)]).2 = none := by
  have h := c1_single_redemption ⟨"s", 600, 3600, 60, "up"⟩ "t" 10 [("t", 10)]
    "task" "d" 20 [("d", ⟨"task", 20⟩)] 5 7 [6, 8] [9]
    (by decide) (by decide) (by decide) (by decide) (by decide)
    (by decide) (by decide) (by decide)
  simpa using h

/-- C3: a credential with expiry instant `issue + d` (issued with TTL `d`)
redeems successfully at any time `now < issue + d` and fails `Unauthorized` at
any `now ≥ issue + d`, for both token kinds; the outcome is the same whether or
not an opportunistic expiry sweep ran at any earlier instant. -/
theorem c3_expiry
    (cfg : Config) (t : String) (issue d now ts : Nat) (m : Dict Nat) (swept : Bool)
    (tid dtok : String) (issue2 d2 now2 ts2 : Nat) (dm : Dict DlTok) (swept2 : Bool)
    (hU : cfg.UPLOAD_TOKEN ≠ "") (ht : t ≠ "") (htU : t ≠ cfg.UPLOAD_TOKEN)
    (hnd : keysNodup m) (hm : lookupKey t m = some (issue + d)) (hts : ts ≤ now)
    (hdtok : dtok ≠ "") (hnd2 : keysNodup dm)
    (hdm : lookupKey dtok dm = some ⟨tid, issue2 + d2⟩) (hts2 : ts2 ≤ now2) :
    (authorize_upload_token cfg now (some t)
        (if swept then cleanup_expired_one_time_tokens ts m else m)).1
      = (if now < issue + d then .ok "one_time" else .error .unauthorized)
    ∧ (authorize_download_token now2 (some dtok) tid
        (if swept2 then cleanup_expired_download_tokens ts2 dm else dm)).1
      = (if now2 < issue2 + d2 then .ok () else .error .unauthorized) := by
  constructor
  · by_cases hlt : now < issue + d
    · have hm' : lookupKey t
          (if swept then cleanup_expired_one_time_tokens ts m else m)
          = some (issue + d) := by
        cases swept with
        | false => simpa using hm
        | true =>
          have hts' : ts < issue + d := lt_of_le_of_lt hts hlt
          simpa using lookupKey_filter_of_pos hm (by simpa using hts')
      simp [authorize_upload_token_success hU ht htU hm' hlt, hlt]
    · have hle : issue + d ≤ now := Nat.le_of_not_lt hlt
      have hnd' : keysNodup (if swept then cleanup_expired_one_time_tokens ts m else m) := by
        cases swept with
        | false => simpa using hnd
        | true => simpa using keysNodup_filter hnd
      have hcase : lookupKey t
            (if swept then cleanup_expired_one_time_tokens ts m else m)
            = some (issue + d)
          ∨ lookupKey t
            (if swept then cleanup_expired_one_time_tokens ts m else m)
            = none := by
        cases swept with
        | false => simpa using Or.inl hm
        | true =>
          have heq := @lookupKey_filter_eq Nat (fun q => decide (ts < q.2)) t m hnd
          rw [hm] at heq
          by_cases hts' : ts < issue + d
          · exact Or.inl (by simpa [hts'] using heq)
          · exact Or.inr (by simpa [hts'] using heq)
      rcases hcase with hsome | hnone
      · simp [authorize_upload_token_expired hU ht htU hnd' hsome hle, hlt]
      · simp [authorize_upload_token_absent hU ht htU hnone, hlt]
  · by_cases hlt : now2 < issue2 + d2
    · have hm' : lookupKey dtok
          (if swept2 then cleanup_expired_download_tokens ts2 dm else dm)
          = some ⟨tid, issue2 + d2⟩ := by
        cases swept2 with
        | false => simpa using hdm
        | true =>
          have hts' : ts2 < issue2 + d2 := lt_of_le_of_lt hts2 hlt
          simpa using lookupKey_filter_of_pos hdm (by simpa using hts')
      simp [authorize_download_token_success hdtok hm' hlt, hlt]
    · have hle : issue2 + d2 ≤ now2 := Nat.le_of_not_lt hlt
      have hnd' : keysNodup (if swept2 then cleanup_expired_download_tokens ts2 dm else dm) := by
        cases swept2 with
        | false => simpa using hnd2
        | true => simpa using keysNodup_filter hnd2
      have hcase : lookupKey dtok
            (if swept2 then cleanup_expired_download_tokens ts2 dm else dm)
            = some ⟨tid, issue2 + d2⟩
          ∨ lookupKey dtok
            (if swept2 then cleanup_expired_download_tokens ts2 dm else dm)
            = none := by
        cases swept2 with
        | false => simpa using Or.inl hdm
        | true =>
          have heq := @lookupKey_filter_eq DlTok (fun q => decide (ts2 < q.2.expire_at))
            dtok dm hnd2
          rw [hdm] at heq
          by_cases hts' : ts2 < issue2 + d2
          · exact Or.inl (by simpa [hts'] using heq)
          · exact Or.inr (by simpa [hts'] using heq)
      rcases hcase with hsome | hnone
      · simp [authorize_download_token_expired hdtok hnd' hsome hle, hlt]
      · have habs := @authorize_download_token_absent now2 dtok tid
          (if swept2 then cleanup_expired_download_tokens ts2 dm else dm) hdtok hnone
        simp [habs, hlt]

/-- C3 witness: a token with expiry 10 redeems at time 4 after a sweep at time 3
and fails at time 12 after a sweep at time 5 (download kind). -/
theorem c3_witness :
    (authorize_upload_token ⟨"s", 600, 3600, 60, "up"⟩ 4 (some "t")
        (cleanup_expired_one_time_tokens 3 [("t", 10)])).1 = .ok "one_time"
    ∧ (authorize_download_token 12 (some "d") "task"
        (cleanup_expired_download_tokens 5 [("d", ⟨"task", 10⟩)])).1
      = .error .unauthorized := by
  have h := c3_expiry ⟨"s", 600, 3600, 60, "up"⟩ "t" 0 10 4 3 [("t", 10)] true
    "task" "d" 0 10 12 5 [("d", ⟨"task", 10⟩)] true
    (by decide) (by decide) (by decide) (by decide) (by decide) (by decide)
    (by decide) (by decide) (by decide) (by decide)
  simpa using h

/-- Helper: a download against a one-task state with a matching live download
token succeeds, returns the blob with the `task_id.bin` name, schedules exactly
the burn of that task, and leaves the task and blob intact at hand-off time. -/
theorem download_file_singleton {cfg : Config} {now : Nat} {tid d fp : String}
    {t0 e : Nat} {B : Bytes} {otk : Dict Nat}
    (hd : d ≠ "") (he : now < e)
    (hexp : task_expired cfg now ⟨fp, true, t0⟩ = false) :
    download_file cfg now tid (some d)
        ⟨[(tid, ⟨fp, true, t0⟩)], otk, [(d, ⟨tid, e⟩)], [(fp, B)]⟩
      = (.ok (B, tid ++ ".bin"),
         ⟨[(tid, ⟨fp, true, t0⟩)], otk, [], [(fp, B)]⟩, [tid]) := by
  have hlk : lookupKey d [(d, (⟨tid, e⟩ : DlTok))] = some ⟨tid, e⟩ := by
    simp [lookupKey]
  have hauth := @authorize_download_token_success now d tid e [(d, ⟨tid, e⟩)] hd hlk he
  have hcl := @cleanup_expired_tasks_id cfg now
    [(tid, (⟨fp, true, t0⟩ : TaskRec))] [(fp, B)]
    (fun q hq => by rw [List.mem_singleton.mp hq]; exact hexp)
  simp [download_file, hauth, hcl, cleanup_expired_download_tokens, he,
    eraseKey, lookupKey]

/-- C2 (amended): for every byte sequence B, uploading B and then downloading
with the returned credential yields exactly the payload bytes B, verbatim; the
auxiliary string K supplied with the upload is not stored: the download's name
is derived from the task id instead. -/
theorem c2_round_trip_bytes
    (cfg : Config) (B : Bytes) (K : String) (now1 now2 : Nat) (task_id dl_tok : String)
    (hU : cfg.UPLOAD_TOKEN ≠ "") (hd : dl_tok ≠ "")
    (hTTL : now2 < now1 + cfg.ONE_TIME_TOKEN_TTL_SECONDS)
    (hTask : now2 < now1 + cfg.TASK_TTL_SECONDS) :
    (upload_file cfg now1 (some cfg.UPLOAD_TOKEN) none K task_id dl_tok (.ok B)
        ⟨[], [], [], []⟩).1 = .ok (task_id ++ "|" ++ dl_tok)
    ∧ (download_file cfg now2 task_id (some dl_tok)
        (upload_file cfg now1 (some cfg.UPLOAD_TOKEN) none K task_id dl_tok (.ok B)
          ⟨[], [], [], []⟩).2).1
      = .ok (B, task_id ++ ".bin") := by
  have hup : upload_file cfg now1 (some cfg.UPLOAD_TOKEN) none K task_id dl_tok (.ok B)
      ⟨[], [], [], []⟩
      = (.ok (task_id ++ "|" ++ dl_tok),
         ⟨[(task_id, ⟨cfg.UPLOAD_DIR ++ "/" ++ task_id ++ ".bin", true, now1⟩)],
          [],
          [(dl_tok, ⟨task_id, now1 + cfg.ONE_TIME_TOKEN_TTL_SECONDS⟩)],
          [(cfg.UPLOAD_DIR ++ "/" ++ task_id ++ ".bin", B)]⟩) := by
    simp [upload_file, authorize_upload_token, hU, cleanup_expired_tasks,
      cleanup_expired_download_tokens, content_length_exceeds,
      save_uploadfile_to_disk, issue_download_token, insertKey, eraseKey]
  have hexp : task_expired cfg now2
      ⟨cfg.UPLOAD_DIR ++ "/" ++ task_id ++ ".bin", true, now1⟩ = false := by
    simp only [task_expired, decide_eq_false_iff_not]
    omega
  refine ⟨by simp [hup], ?_⟩
  rw [hup]
  simp [download_file_singleton hd hTTL hexp]

/-- C2 witness: the amended round trip at a concrete payload and key string. -/
theorem c2_witness :
    (upload_file ⟨"s", 600, 3600, 60, "up"⟩ 1 (some "s") none "k" "t1" "d1" (.ok [9, 8])
        ⟨[], [], [], []⟩).1 = .ok ("t1" ++ "|" ++ "d1")
    ∧ (download_file ⟨"s", 600, 3600, 60, "up"⟩ 2 "t1" (some "d1")
        (upload_file ⟨"s", 600, 3600, 60, "up"⟩ 1 (some "s") none "k" "t1" "d1" (.ok [9, 8])
          ⟨[], [], [], []⟩).2).1 = .ok ([9, 8], "t1" ++ ".bin") :=
  c2_round_trip_bytes ⟨"s", 600, 3600, 60, "up"⟩ [9, 8] "k" 1 2 "t1" "d1"
    (by decide) (by decide) (by decide) (by decide)

/-- C2 counterexample: the claim as stated is false — the auxiliary string is
not stored or returned. Uploading payload [9, 8] with auxiliary string "k.txt"
and downloading with the returned credential yields the payload under the name
"t1.bin" derived from the task id, not the pair ([9, 8], "k.txt"). -/
theorem c2_counterexample :
    (download_file ⟨"s", 600, 3600, 60, "up"⟩ 2 "t1" (some "d1")
        (upload_file ⟨"s", 600, 3600, 60, "up"⟩ 1 (some "s") none "k.txt" "t1" "d1"
          (.ok [9, 8]) ⟨[], [], [], []⟩).2).1 = .ok ([9, 8], "t1.bin")
    ∧ (download_file ⟨"s", 600, 3600, 60, "up"⟩ 2 "t1" (some "d1")
        (upload_file ⟨"s", 600, 3600, 60, "up"⟩ 1 (some "s") none "k.txt" "t1" "d1"
          (.ok [9, 8]) ⟨[], [], [], []⟩).2).1 ≠ .ok ([9, 8], "k.txt") := by
  constructor
  · decide
  · decide

/-- C4: for a task stored with burn enabled, the first download with a valid
credential succeeds, handing off the blob while the burn is only scheduled
(the returned state still holds the task and the file; the deferred list is
exactly the burn of this task); running the scheduled burn afterwards removes
the record and the blob; a credential freshly reissued between hand-off and
burn, presented after the burn has run, fails `NotFound`. -/
theorem c4_burn_on_delivery
    (cfg : Config) (tid fp d d2 : String) (t0 e1 now1 now2 now3 : Nat) (B : Bytes)
    (hU : cfg.UPLOAD_TOKEN ≠ "") (hd : d ≠ "") (hd2 : d2 ≠ "") (hfp : fp ≠ "")
    (he1 : now1 < e1)
    (hx1 : task_expired cfg now1 ⟨fp, true, t0⟩ = false)
    (hx2 : task_expired cfg now2 ⟨fp, true, t0⟩ = false)
    (he3 : now3 < now2 + cfg.ONE_TIME_TOKEN_TTL_SECONDS) :
    download_file cfg now1 tid (some d)
        ⟨[(tid, ⟨fp, true, t0⟩)], [], [(d, ⟨tid, e1⟩)], [(fp, B)]⟩
      = (.ok (B, tid ++ ".bin"),
         ⟨[(tid, ⟨fp, true, t0⟩)], [], [], [(fp, B)]⟩, [tid])
    ∧ reissue_download_token cfg now2 tid (some cfg.UPLOAD_TOKEN) d2
        ⟨[(tid, ⟨fp, true, t0⟩)], [], [], [(fp, B)]⟩
      = (.ok d2,
         ⟨[(tid, ⟨fp, true, t0⟩)], [],
          [(d2, ⟨tid, now2 + cfg.ONE_TIME_TOKEN_TTL_SECONDS⟩)], [(fp, B)]⟩)
    ∧ run_background [tid] [(tid, ⟨fp, true, t0⟩)] [(fp, B)] = ([], [])
    ∧ download_file cfg now3 tid (some d2)
        ⟨[], [], [(d2, ⟨tid, now2 + cfg.ONE_TIME_TOKEN_TTL_SECONDS⟩)], []⟩
      = (.error .notFound, ⟨[], [], [], []⟩, []) := by
  refine ⟨download_file_singleton hd he1 hx1, ?_, ?_, ?_⟩
  · have hcl := @cleanup_expired_tasks_id cfg now2
      [(tid, (⟨fp, true, t0⟩ : TaskRec))] [(fp, B)]
      (fun q hq => by rw [List.mem_singleton.mp hq]; exact hx2)
    simp [reissue_download_token, hU, hcl, lookupKey, issue_download_token,
      cleanup_expired_download_tokens, insertKey, eraseKey]
  · simp [run_background, delete_task, lookupKey, eraseKey, delete_file_quiet, hfp]
  · have hlk : lookupKey d2
        [(d2, (⟨tid, now2 + cfg.ONE_TIME_TOKEN_TTL_SECONDS⟩ : DlTok))]
        = some ⟨tid, now2 + cfg.ONE_TIME_TOKEN_TTL_SECONDS⟩ := by
      simp [lookupKey]
    have hauth := @authorize_download_token_success now3 d2 tid
      (now2 + cfg.ONE_TIME_TOKEN_TTL_SECONDS)
      [(d2, ⟨tid, now2 + cfg.ONE_TIME_TOKEN_TTL_SECONDS⟩)] hd2 hlk he3
    simp [download_file, hauth, cleanup_expired_tasks, lookupKey,
      cleanup_expired_download_tokens, he3, eraseKey]

/-- C4 witness: the burn-on-delivery scenario at concrete values. -/
theorem c4_witness :
    download_file ⟨"s", 600, 3600, 60, "up"⟩ 5 "t" (some "d")
        ⟨[("t", ⟨"f", true, 1⟩)], [], [("d", ⟨"t", 10⟩)], [("f", [1])]⟩
      = (.ok ([1], "t" ++ ".bin"),
         ⟨[("t", ⟨"f", true, 1⟩)], [], [], [("f", [1])]⟩, ["t"])
    ∧ reissue_download_token ⟨"s", 600, 3600, 60, "up"⟩ 6 "t" (some "s") "e"
        ⟨[("t", ⟨"f", true, 1⟩)], [], [], [("f", [1])]⟩
      = (.ok "e",
         ⟨[("t", ⟨"f", true, 1⟩)], [], [("e", ⟨"t", 6 + 600⟩)], [("f", [1])]⟩)
    ∧ run_background ["t"] [("t", ⟨"f", true, 1⟩)] [("f", [1])] = ([], [])
    ∧ download_file ⟨"s", 600, 3600, 60, "up"⟩ 7 "t" (some "e")
        ⟨[], [], [("e", ⟨"t", 6 + 600⟩)], []⟩
      = (.error .notFound, ⟨[], [], [], []⟩, []) :=
  c4_burn_on_delivery ⟨"s", 600, 3600, 60, "up"⟩ "t" "f" "d" "e" 1 10 5 6 7 [1]
    (by decide) (by decide) (by decide) (by decide) (by decide)
    (by decide) (by decide) (by decide)

/-- Erasing a key right after inserting it is the same as erasing it from the
original dictionary. -/
theorem eraseKey_insertKey_self {V : Type} (k : String) (v : V) (d : Dict V) :
    eraseKey k (insertKey k v d) = eraseKey k d := by
  simp only [insertKey, eraseKey, if_pos]
  exact eraseKey_of_lookupKey_none (lookupKey_eraseKey_self k d)

/-- C5: when the streaming phase of an upload fails, the partially written blob
is deleted, the error is propagated, and no task record and no download
credential are registered: from a state with no expired entries (so the
opportunistic sweeps are no-ops) and a fresh target path, the post-failure
state is exactly the pre-upload state except that the redeemed one-time upload
token is consumed. -/
theorem c5_failed_upload_cleanup
    (cfg : Config) (now : Nat) (t K task_id dl_tok : String) (e : Nat)
    (written : Bytes) (st : St)
    (hU : cfg.UPLOAD_TOKEN ≠ "") (ht : t ≠ "") (htU : t ≠ cfg.UPLOAD_TOKEN)
    (hm : lookupKey t st.one_time_tokens = some e) (hnow : now < e)
    (hfresh : lookupKey (cfg.UPLOAD_DIR ++ "/" ++ task_id ++ ".bin") st.files = none)
    (hT : ∀ q ∈ st.tasks, task_expired cfg now q.2 = false)
    (hD : ∀ q ∈ st.download_tokens, now < q.2.expire_at)
    (hO : ∀ q ∈ st.one_time_tokens, now < q.2) :
    upload_file cfg now (some t) none K task_id dl_tok (.err written) st
      = (.error .streamError,
         ⟨st.tasks, eraseKey t st.one_time_tokens, st.download_tokens, st.files⟩) := by
  have hauth := authorize_upload_token_success hU ht htU hm hnow
  have hO' := cleanup_expired_one_time_tokens_id hO
  have hcl := @cleanup_expired_tasks_id cfg now st.tasks st.files hT
  have hdl := cleanup_expired_download_tokens_id hD
  have hfp : cfg.UPLOAD_DIR ++ "/" ++ task_id ++ ".bin" ≠ "" := append_bin_ne_empty _ _
  have hdel : delete_file_quiet (cfg.UPLOAD_DIR ++ "/" ++ task_id ++ ".bin")
      (insertKey (cfg.UPLOAD_DIR ++ "/" ++ task_id ++ ".bin") written st.files)
      = st.files := by
    rw [delete_file_quiet, if_neg hfp, eraseKey_insertKey_self,
      eraseKey_of_lookupKey_none hfresh]
  simp [upload_file, hauth, hO', hcl, hdl, content_length_exceeds,
    save_uploadfile_to_disk, hdel]

/-- C5 witness: a concrete failed upload against a non-trivial healthy state
leaves everything unchanged except the consumed one-time upload token. -/
theorem c5_witness :
    upload_file ⟨"s", 600, 3600, 60, "up"⟩ 5 (some "t") none "k" "t1" "d1" (.err [7])
        ⟨[("a", ⟨"pa", true, 1⟩)], [("t", 10)], [("dd", ⟨"a", 50⟩)], [("pa", [1])]⟩
      = (.error .streamError,
         ⟨[("a", ⟨"pa", true, 1⟩)], eraseKey "t" [("t", 10)],
          [("dd", ⟨"a", 50⟩)], [("pa", [1])]⟩) :=
  c5_failed_upload_cleanup ⟨"s", 600, 3600, 60, "up"⟩ 5 "t" "k" "t1" "d1" 10 [7]
    ⟨[("a", ⟨"pa", true, 1⟩)], [("t", 10)], [("dd", ⟨"a", 50⟩)], [("pa", [1])]⟩
    (by decide) (by decide) (by decide) (by decide) (by decide)
    (by decide) (by decide) (by decide) (by decide)

/-- C6: an authorized upload whose declared content length exceeds the
configured maximum is rejected with `PayloadTooLarge`; the outcome is
completely independent of the request body stream (no bytes are ever read),
and no path gains content (no storage write occurs — the opportunistic sweeps
only delete). -/
theorem c6_size_limit
    (cfg : Config) (now : Nat) (x : Option String) (n : Nat)
    (K task_id dl_tok kind : String) (stream1 stream2 : StreamRes) (st : St)
    (hauth : (authorize_upload_token cfg now x st.one_time_tokens).1 = .ok kind)
    (hn : cfg.MAX_UPLOAD_BYTES < n) :
    (upload_file cfg now x (some n) K task_id dl_tok stream1 st).1
      = .error .payloadTooLarge
    ∧ upload_file cfg now x (some n) K task_id dl_tok stream1 st
        = upload_file cfg now x (some n) K task_id dl_tok stream2 st
    ∧ ∀ p, lookupKey p st.files = none →
        lookupKey p (upload_file cfg now x (some n) K task_id dl_tok stream1 st).2.files
          = none := by
  rcases ha : authorize_upload_token cfg now x st.one_time_tokens with ⟨r, ott⟩
  rw [ha] at hauth
  have hr : r = .ok kind := hauth
  subst hr
  refine ⟨?_, ?_, ?_⟩
  · simp [upload_file, ha, content_length_exceeds, hn]
  · simp [upload_file, ha, content_length_exceeds, hn]
  · intro p hp
    have hcle : content_length_exceeds cfg (some n) = true := by
      simp [content_length_exceeds, hn]
    have hfiles : (upload_file cfg now x (some n) K task_id dl_tok stream1 st).2.files
        = (cleanup_expired_tasks cfg now st.tasks st.files).2 := by
      simp [upload_file, ha, hcle]
    rw [hfiles]
    simp only [cleanup_expired_tasks]
    exact lookupKey_foldl_delete_none hp

/-- C6 witness: a concrete too-large declared length is rejected identically
for two different streams, writing nothing. -/
theorem c6_witness :
    (upload_file ⟨"s", 600, 3600, 10, "up"⟩ 1 (some "s") (some 11) "k" "t1" "d1"
        (.ok [1]) ⟨[], [], [], []⟩).1 = .error .payloadTooLarge
    ∧ upload_file ⟨"s", 600, 3600, 10, "up"⟩ 1 (some "s") (some 11) "k" "t1" "d1"
        (.ok [1]) ⟨[], [], [], []⟩
      = upload_file ⟨"s", 600, 3600, 10, "up"⟩ 1 (some "s") (some 11) "k" "t1" "d1"
        (.err [2, 3]) ⟨[], [], [], []⟩
    ∧ lookupKey "q" (upload_file ⟨"s", 600, 3600, 10, "up"⟩ 1 (some "s") (some 11)
        "k" "t1" "d1" (.ok [1]) ⟨[], [], [], []⟩).2.files = none := by
  have h := c6_size_limit ⟨"s", 600, 3600, 10, "up"⟩ 1 (some "s") 11 "k" "t1" "d1"
    "long" (.ok [1]) (.err [2, 3]) ⟨[], [], [], []⟩ (by decide) (by decide)
  exact ⟨h.1, h.2.1, h.2.2 "q" (by decide)⟩

/-- C7: the retention sweep (run on the upload and download entry points)
destroys exactly the task records with `created_at + TASK_TTL_SECONDS ≤ now`
(creation instants are the positive `time.time()` values the code produces),
deleting their backing blobs as well; consequently a task created at `t0`,
queried at any `now2 ≥ t0 + TASK_TTL_SECONDS` through an entry point (here the
reissue endpoint), is `NotFound` and its backing file no longer exists. -/
theorem c7_retention_sweep
    (cfg : Config) (now : Nat) (tasks : Dict TaskRec) (files : Dict Bytes)
    (id : String) (r : TaskRec)
    (tid fp d2 : String) (t0 now2 : Nat) (B : Bytes)
    (hnd : keysNodup tasks)
    (hpos : ∀ q ∈ tasks, q.2.created_at ≠ 0)
    (hr : lookupKey id tasks = some r) (hfp : r.file_path ≠ "")
    (hU : cfg.UPLOAD_TOKEN ≠ "") (ht0 : t0 ≠ 0) (hfp2 : fp ≠ "")
    (hq : t0 + cfg.TASK_TTL_SECONDS ≤ now2) :
    (lookupKey id (cleanup_expired_tasks cfg now tasks files).1
        = if r.created_at + cfg.TASK_TTL_SECONDS ≤ now then none else some r)
    ∧ (r.created_at + cfg.TASK_TTL_SECONDS ≤ now →
        lookupKey r.file_path (cleanup_expired_tasks cfg now tasks files).2 = none)
    ∧ (reissue_download_token cfg now2 tid (some cfg.UPLOAD_TOKEN) d2
          ⟨[(tid, ⟨fp, true, t0⟩)], [], [], [(fp, B)]⟩).1 = .error .notFound
    ∧ lookupKey fp (reissue_download_token cfg now2 tid (some cfg.UPLOAD_TOKEN) d2
          ⟨[(tid, ⟨fp, true, t0⟩)], [], [], [(fp, B)]⟩).2.files = none := by
  have hpos' : r.created_at ≠ 0 := hpos (id, r) (mem_of_lookupKey hr)
  have h1 : lookupKey id (cleanup_expired_tasks cfg now tasks files).1
      = if r.created_at + cfg.TASK_TTL_SECONDS ≤ now then none else some r := by
    by_cases hle : r.created_at + cfg.TASK_TTL_SECONDS ≤ now
    · have hexp : task_expired cfg now r = true := by
        simp [task_expired, hpos', hle]
      rw [if_pos hle]
      simp only [cleanup_expired_tasks]
      exact lookupKey_filter_of_neg hnd hr (by simp [hexp])
    · have hexp : task_expired cfg now r = false := by
        simp [task_expired, hle]
      rw [if_neg hle]
      simp only [cleanup_expired_tasks]
      exact lookupKey_filter_of_pos hr (by simp [hexp])
  have h2 : r.created_at + cfg.TASK_TTL_SECONDS ≤ now →
      lookupKey r.file_path (cleanup_expired_tasks cfg now tasks files).2 = none := by
    intro hle
    have hexp : task_expired cfg now r = true := by
      simp [task_expired, hpos', hle]
    simp only [cleanup_expired_tasks]
    refine lookupKey_foldl_delete_mem hfp ⟨(id, r), ?_, rfl⟩
    exact List.mem_filter.mpr ⟨mem_of_lookupKey hr, by simp [hexp]⟩
  have hexp2 : task_expired cfg now2 (⟨fp, true, t0⟩ : TaskRec) = true := by
    simp [task_expired, ht0, hq]
  have hcl : cleanup_expired_tasks cfg now2 [(tid, ⟨fp, true, t0⟩)] [(fp, B)]
      = ([], []) := by
    simp [cleanup_expired_tasks, hexp2, delete_file_quiet, hfp2, eraseKey]
  have h34 : reissue_download_token cfg now2 tid (some cfg.UPLOAD_TOKEN) d2
      ⟨[(tid, ⟨fp, true, t0⟩)], [], [], [(fp, B)]⟩
      = (.error .notFound, ⟨[], [], [], []⟩) := by
    simp [reissue_download_token, hU, hcl, lookupKey]
  exact ⟨h1, h2, by simp [h34], by simp [h34, lookupKey]⟩

/-- C7 witness: a concrete expired record is swept with its blob, and an
expired task queried through the reissue endpoint is `NotFound` with its file
gone. -/
theorem c7_witness :
    lookupKey "a" (cleanup_expired_tasks ⟨"s", 600, 5, 60, "up"⟩ 9
        [("a", ⟨"pa", true, 2⟩)] [("pa", [1])]).1 = none
    ∧ lookupKey "pa" (cleanup_expired_tasks ⟨"s", 600, 5, 60, "up"⟩ 9
        [("a", ⟨"pa", true, 2⟩)] [("pa", [1])]).2 = none
    ∧ (reissue_download_token ⟨"s", 600, 5, 60, "up"⟩ 6 "t" (some "s") "d"
        ⟨[("t", ⟨"f", true, 1⟩)], [], [], [("f", [3])]⟩).1 = .error .notFound
    ∧ lookupKey "f" (reissue_download_token ⟨"s", 600, 5, 60, "up"⟩ 6 "t" (some "s") "d"
        ⟨[("t", ⟨"f", true, 1⟩)], [], [], [("f", [3])]⟩).2.files = none := by
  have h := c7_retention_sweep ⟨"s", 600, 5, 60, "up"⟩ 9 [("a", ⟨"pa", true, 2⟩)]
    [("pa", [1])] "a" ⟨"pa", true, 2⟩ "t" "f" "d" 1 6 [3]
    (by decide) (by decide) (by decide) (by decide) (by decide) (by decide)
    (by decide) (by decide)
  exact ⟨h.1.trans (by decide), h.2.1 (by decide), h.2.2.1, h.2.2.2⟩

/-- C8 (against the spec-modelled `slot_upload`; the latest-slot variant is not
in `src/main.py`): uploading payload A into the reserved slot and then
uploading payload B makes only B retrievable — the slot holds B, the temp path
is released, and every other path is untouched, so A's storage is fully
released; the overwrite is atomic: during the second upload's temp-write phase
the slot still exposes the complete previously committed payload A, never a
partial file. -/
theorem c8_latest_slot
    (slot tmp : String) (A B : Bytes) (files0 : Dict Bytes)
    (hst : slot ≠ tmp) (hAB : A ≠ B) :
    lookupKey slot (slot_upload slot tmp B (slot_upload slot tmp A files0).2).2 = some B
    ∧ lookupKey tmp (slot_upload slot tmp B (slot_upload slot tmp A files0).2).2 = none
    ∧ (∀ p, lookupKey p (slot_upload slot tmp B (slot_upload slot tmp A files0).2).2
          = some A → lookupKey p files0 = some A)
    ∧ lookupKey slot (slot_upload slot tmp B (slot_upload slot tmp A files0).2).1 = some A
    ∧ lookupKey slot (slot_upload slot tmp A files0).2 = some A := by
  have htmp : tmp ≠ slot := Ne.symm hst
  refine ⟨?_, ?_, ?_, ?_, ?_⟩
  · simp [slot_upload, lookupKey_insertKey_self]
  · simp [slot_upload, lookupKey_insertKey_ne hst, lookupKey_eraseKey_self]
  · intro p hp
    simp only [slot_upload] at hp
    by_cases hps : slot = p
    · subst hps
      rw [lookupKey_insertKey_self] at hp
      exact absurd (Option.some.inj hp) (fun h => hAB h.symm)
    · by_cases hpt : tmp = p
      · subst hpt
        rw [lookupKey_insertKey_ne hps, lookupKey_eraseKey_self] at hp
        exact Option.noConfusion hp
      · rw [lookupKey_insertKey_ne hps, lookupKey_eraseKey_ne hpt,
          lookupKey_insertKey_ne hpt, lookupKey_insertKey_ne hps,
          lookupKey_eraseKey_ne hpt, lookupKey_insertKey_ne hpt] at hp
        exact hp
  · simp [slot_upload, lookupKey_insertKey_ne htmp, lookupKey_insertKey_self]
  · simp [slot_upload, lookupKey_insertKey_self]

/-- C8 witness: two concrete slot uploads over a store holding an unrelated
file; only the second payload remains at the slot, the unrelated file is
untouched, and the intermediate phase still exposes the first payload. -/
theorem c8_witness :
    lookupKey "latest" (slot_upload "latest" "tmp" [2]
        (slot_upload "latest" "tmp" [1] [("old", [1])]).2).2 = some [2]
    ∧ lookupKey "tmp" (slot_upload "latest" "tmp" [2]
        (slot_upload "latest" "tmp" [1] [("old", [1])]).2).2 = none
    ∧ lookupKey "old" [("old", [1])] = some [1]
    ∧ lookupKey "latest" (slot_upload "latest" "tmp" [2]
        (slot_upload "latest" "tmp" [1] [("old", [1])]).2).1 = some [1]
    ∧ lookupKey "latest" (slot_upload "latest" "tmp" [1] [("old", [1])]).2 = some [1] := by
  have h := c8_latest_slot "latest" "tmp" [1] [2] [("old", [1])] (by decide) (by decide)
  exact ⟨h.1, h.2.1, h.2.2.1 "old" (by decide), h.2.2.2.1, h.2.2.2.2⟩

/-- C9: every task registered through the public upload operation has
`burn_on_download = True` — the non-burning persistence mode is unreachable via
the public interface — and consequently every successful download (from a
registry whose tasks all carry the flag, as uploads guarantee) schedules
exactly the destruction of the downloaded task. -/
theorem c9_burn_always_true
    (cfg : Config) (now : Nat) (x : Option String) (cl : Option Nat)
    (K task_id dl_tok out : String) (stream : StreamRes) (st st2 : St)
    (now2 : Nat) (tid2 : String) (xd : Option String) (content : Bytes) (nm : String)
    (st3 : St)
    (hup : upload_file cfg now x cl K task_id dl_tok stream st = (.ok out, st2))
    (hb : ∀ q ∈ st3.tasks, q.2.burn_on_download = true)
    (hdl : (download_file cfg now2 tid2 xd st3).1 = .ok (content, nm)) :
    (lookupKey task_id st2.tasks).map TaskRec.burn_on_download = some true
    ∧ (download_file cfg now2 tid2 xd st3).2.2 = [tid2] := by
  constructor
  · rcases ha : authorize_upload_token cfg now x st.one_time_tokens with ⟨r, ott⟩
    rcases hcl : cleanup_expired_tasks cfg now st.tasks st.files with ⟨tasks1, files1⟩
    cases r with
    | error e =>
      simp only [upload_file, ha] at hup
      simp at hup
    | ok kind =>
      by_cases hce : content_length_exceeds cfg cl
      · simp only [upload_file, ha, hce, if_true] at hup
        simp at hup
      · cases stream with
        | err w =>
          simp only [upload_file, ha, hcl, hce, if_false, save_uploadfile_to_disk] at hup
          simp at hup
        | ok c2 =>
          simp only [upload_file, ha, hcl, hce, if_false, save_uploadfile_to_disk,
            issue_download_token] at hup
          have hst2 := congrArg Prod.snd hup
          simp only at hst2
          rw [← hst2]
          simp [lookupKey_insertKey_self]
  · rcases ha2 : authorize_download_token now2 xd tid2 st3.download_tokens with ⟨r2, dts⟩
    cases r2 with
    | error e =>
      simp only [download_file, ha2] at hdl
      simp at hdl
    | ok u =>
      rcases hcl2 : cleanup_expired_tasks cfg now2 st3.tasks st3.files with ⟨tasks1, files1⟩
      simp only [download_file, ha2, hcl2] at hdl ⊢
      cases hlk : lookupKey tid2 tasks1 with
      | none => simp [hlk] at hdl
      | some task =>
        simp only [hlk] at hdl ⊢
        cases hf : lookupKey task.file_path files1 with
        | none => simp [hf] at hdl
        | some c =>
          simp only [hf] at hdl ⊢
          have htf : tasks1 = st3.tasks.filter (fun p => !(task_expired cfg now2 p.2)) := by
            have h5 := congrArg Prod.fst hcl2
            simpa [cleanup_expired_tasks] using h5.symm
          have hmem : (tid2, task) ∈ st3.tasks := by
            have h6 := mem_of_lookupKey hlk
            rw [htf] at h6
            exact (List.mem_filter.mp h6).1
          have htask : task.burn_on_download = true := hb (tid2, task) hmem
          simp [htask]

/-- C9 witness: a concrete upload registers a burning task, and the following
download schedules its destruction. -/
theorem c9_witness :
    (lookupKey "t1" [("t1", (⟨"up/t1.bin", true, 1⟩ : TaskRec))]).map
        TaskRec.burn_on_download = some true
    ∧ (download_file ⟨"s", 600, 3600, 60, "up"⟩ 2 "t1" (some "d1")
        ⟨[("t1", ⟨"up/t1.bin", true, 1⟩)], [], [("d1", ⟨"t1", 601⟩)],
         [("up/t1.bin", [1])]⟩).2.2 = ["t1"] :=
  c9_burn_always_true ⟨"s", 600, 3600, 60, "up"⟩ 1 (some "s") none "k" "t1" "d1"
    "t1|d1" (.ok [1]) ⟨[], [], [], []⟩
    ⟨[("t1", ⟨"up/t1.bin", true, 1⟩)], [], [("d1", ⟨"t1", 601⟩)], [("up/t1.bin", [1])]⟩
    2 "t1" (some "d1") [1] "t1.bin"
    ⟨[("t1", ⟨"up/t1.bin", true, 1⟩)], [], [("d1", ⟨"t1", 601⟩)], [("up/t1.bin", [1])]⟩
    (by decide) (by decide) (by decide)

/-- C10: when the upload request declares no content length, the size limit is
not enforced at all — the payload is streamed to storage in full regardless of
its actual byte count — and `PayloadTooLarge` arises exactly when a declared
length exceeds the maximum, never from the number of bytes actually streamed. -/
theorem c10_no_declared_length
    (cfg : Config) (now : Nat) (x : Option String) (kind : String)
    (K task_id dl_tok : String) (payload : Bytes) (n : Nat) (st : St)
    (hauth : (authorize_upload_token cfg now x st.one_time_tokens).1 = .ok kind) :
    ((upload_file cfg now x none K task_id dl_tok (.ok payload) st).1
        = .ok (task_id ++ "|" ++ dl_tok)
      ∧ lookupKey (cfg.UPLOAD_DIR ++ "/" ++ task_id ++ ".bin")
          (upload_file cfg now x none K task_id dl_tok (.ok payload) st).2.files
          = some payload)
    ∧ ((upload_file cfg now x (some n) K task_id dl_tok (.ok payload) st).1
          = .error .payloadTooLarge ↔ cfg.MAX_UPLOAD_BYTES < n) := by
  rcases ha : authorize_upload_token cfg now x st.one_time_tokens with ⟨r, ott⟩
  rw [ha] at hauth
  have hr : r = .ok kind := hauth
  subst hr
  rcases hcl : cleanup_expired_tasks cfg now st.tasks st.files with ⟨tasks1, files1⟩
  refine ⟨⟨?_, ?_⟩, ?_⟩
  · simp [upload_file, ha, hcl, content_length_exceeds, save_uploadfile_to_disk,
      issue_download_token]
  · simp [upload_file, ha, hcl, content_length_exceeds, save_uploadfile_to_disk,
      issue_download_token, lookupKey_insertKey_self]
  · by_cases hn : cfg.MAX_UPLOAD_BYTES < n
    · simp [upload_file, ha, hcl, content_length_exceeds, hn]
    · simp [upload_file, ha, hcl, content_length_exceeds, hn,
        save_uploadfile_to_disk, issue_download_token]

/-- C10 witness: with the maximum set to 2 bytes, a 5-byte payload with no
declared length is accepted and stored in full, while a declared length of 3
is rejected as too large. -/
theorem c10_witness :
    ((upload_file ⟨"s", 600, 3600, 2, "up"⟩ 1 (some "s") none "k" "t1" "d1"
        (.ok [1, 2, 3, 4, 5]) ⟨[], [], [], []⟩).1 = .ok ("t1" ++ "|" ++ "d1")
      ∧ lookupKey ("up" ++ "/" ++ "t1" ++ ".bin")
          (upload_file ⟨"s", 600, 3600, 2, "up"⟩ 1 (some "s") none "k" "t1" "d1"
            (.ok [1, 2, 3, 4, 5]) ⟨[], [], [], []⟩).2.files = some [1, 2, 3, 4, 5])
    ∧ ((upload_file ⟨"s", 600, 3600, 2, "up"⟩ 1 (some "s") (some 3) "k" "t1" "d1"
          (.ok [1, 2, 3, 4, 5]) ⟨[], [], [], []⟩).1 = .error .payloadTooLarge ↔ 2 < 3) :=
  c10_no_declared_length ⟨"s", 600, 3600, 2, "up"⟩ 1 (some "s") "long" "k" "t1" "d1"
    [1, 2, 3, 4, 5] 3 ⟨[], [], [], []⟩ (by decide)

end DeploySync
